import Mathlib

/-!
Verification of the webhook handler repository (`src/webhook.py` and
`src/lambda/webhook.py`).

The development shallowly embeds the two Python handlers.  JSON values that
flow through the handlers are modelled by `JVal`; a JSON string value carries
the result of `json.loads` on its raw text, so that the multi-shape decoding
logic of the handlers can be stated without re-implementing a JSON text
parser.  Python exceptions are modelled by `PyErr` and fallible code returns
`Except PyErr`.  Machine integers inside SHA-1 are `Nat` with explicit
reduction modulo `2 ^ 32`.  External collaborators (pygit2, the hugo build,
the S3 upload) are modelled at their call sites: the git layer is a small
state model whose operations record a trace, so that claims about which git
operations are issued become statements about traces.
-/

/-- Model of the Python exceptions that the handlers can raise or observe. -/
inductive PyErr where
  /-- `KeyError` carrying the missing key. -/
  | keyError (k : String)
  /-- `TypeError` (indexing a string with a string, calling `.keys()` or
  `.encode` on a value without that attribute, concatenating non-strings,
  or `json.loads` applied to a dict). -/
  | typeError
  /-- `json.JSONDecodeError` from `json.loads` on invalid JSON text. -/
  | jsonError
  /-- `UnicodeEncodeError` from `str.encode` with a non-ASCII character. -/
  | unicodeError
  /-- `Exception(msg)` raised explicitly by the handler. -/
  | exc (msg : String)
deriving DecidableEq, Repr

/-- Model of the Python/JSON values the handlers manipulate: dictionaries
and strings.  A string value carries its raw text together with the result
of `json.loads` on that text (`some v` when the text is valid JSON denoting
`v`, `none` otherwise), so decoding steps can be evaluated without a JSON
text parser. -/
inductive JVal where
  | str (raw : String) (parsed : Option JVal)
  | obj (fields : List (String × JVal))

/-- First binding of a key in an association list (Python dict lookup). -/
def lookupField : List (String × JVal) → String → Option JVal
  | [], _ => none
  | (k, v) :: rest, key => if k == key then some v else lookupField rest key

/-- Containment of one character list in another, as Python substring
membership `needle in hay` for strings. -/
def containsSub (needle : List Char) : List Char → Bool
  | [] => needle.isEmpty
  | c :: rest => needle.isPrefixOf (c :: rest) || containsSub needle rest

/-- The Python membership test `key in value`: key membership for a dict,
substring membership for a string. -/
def hasKey : JVal → String → Bool
  | .obj fs, k => (lookupField fs k).isSome
  | .str raw _, k => containsSub k.data raw.data

/-- The Python subscript `value[key]`: dict lookup raising `KeyError` on a
missing key; `TypeError` when the value is a string. -/
def getItem : JVal → String → Except PyErr JVal
  | .obj fs, k =>
    match lookupField fs k with
    | some v => .ok v
    | none => .error (.keyError k)
  | .str _ _, _ => .error .typeError

/-- `json.loads` applied to a value: succeeds on a string of valid JSON
text, raises a decode error on invalid text, and raises `TypeError` on a
dict argument. -/
def jsonLoadsVal : JVal → Except PyErr JVal
  | .str _ (some v) => .ok v
  | .str _ none => .error .jsonError
  | .obj _ => .error .typeError

/-- The Python membership test `key in value.keys()`: key membership for a
dict; a string has no `.keys()`, so a string value raises. -/
def keysContains : JVal → String → Except PyErr Bool
  | .obj fs, k => .ok (lookupField fs k).isSome
  | .str _ _, _ => .error .typeError

/-- ASCII code points of a string (its bytes under `str.encode` when the
encode succeeds). -/
def asciiBytes (s : String) : List Nat := s.data.map Char.toNat

/-- Whether every character of a string is ASCII. -/
def isAsciiStr (s : String) : Bool := s.data.all (fun c => c.toNat < 128)

/-- `str.encode` with the ascii codec: the code points when all characters
are ASCII, a `UnicodeEncodeError` otherwise. -/
def encodeAsciiStr (s : String) : Except PyErr (List Nat) :=
  if isAsciiStr s then .ok (asciiBytes s) else .error .unicodeError

/-- `.encode` called on a JSON value: only a string has the attribute. -/
def encodeJValAscii : JVal → Except PyErr (List Nat)
  | .str raw _ => encodeAsciiStr raw
  | .obj _ => .error .typeError

/-- Split of a character list on a separator character, accumulating the
current piece in reverse (helper for `pySplit`). -/
def pySplitChars (sep : Char) : List Char → List Char → List String
  | [], acc => [String.mk acc.reverse]
  | c :: rest, acc =>
    if c == sep then String.mk acc.reverse :: pySplitChars sep rest []
    else pySplitChars sep rest (c :: acc)

/-- Python `str.split(sep)` for a one-character separator: `"a,b" ↦
["a", "b"]`, `"" ↦ [""]`, `"a,," ↦ ["a", "", ""]`. -/
def pySplit (s : String) (sep : Char) : List String :=
  pySplitChars sep s.data []

/-- Python `str.startswith`. -/
def pyStartsWith (s p : String) : Bool := p.data.isPrefixOf s.data

/-- Python equality between a JSON value and a string literal: string
comparison on a string value, `False` on a dict. -/
def pyEqStr (v : JVal) (s : String) : Bool :=
  match v with
  | .str raw _ => raw == s
  | .obj _ => false

/-- Reduction modulo `2 ^ 32`, the word size of SHA-1. -/
def w32 (n : Nat) : Nat := n % 4294967296

/-- Bitwise combination of two naturals over `fuel` binary digits, by
structural recursion on the fuel (kernel-reducible, unlike the
well-founded `Nat.bitwise`). -/
def bitw (f : Bool → Bool → Bool) : Nat → Nat → Nat → Nat
  | 0, _, _ => 0
  | fuel + 1, a, b =>
    (if f (a % 2 == 1) (b % 2 == 1) then 1 else 0) + 2 * bitw f fuel (a / 2) (b / 2)

/-- 32-bit exclusive or. -/
def xor32 (a b : Nat) : Nat := bitw (fun x y => x != y) 32 a b

/-- 32-bit conjunction. -/
def and32 (a b : Nat) : Nat := bitw (fun x y => x && y) 32 a b

/-- 32-bit disjunction. -/
def or32 (a b : Nat) : Nat := bitw (fun x y => x || y) 32 a b

/-- 32-bit complement of a word below `2 ^ 32`. -/
def not32 (a : Nat) : Nat := 4294967295 - a

/-- Left rotation of a 32-bit word by `s` places. -/
def rotl32 (x s : Nat) : Nat := w32 (x * 2 ^ s) + x / 2 ^ (32 - s)

/-- The SHA-1 round function for round `t`. -/
def shaF (t b c d : Nat) : Nat :=
  if t < 20 then or32 (and32 b c) (and32 (not32 b) d)
  else if t < 40 then xor32 (xor32 b c) d
  else if t < 60 then or32 (or32 (and32 b c) (and32 b d)) (and32 c d)
  else xor32 (xor32 b c) d

/-- The SHA-1 round constant for round `t`. -/
def shaK (t : Nat) : Nat :=
  if t < 20 then 1518500249
  else if t < 40 then 1859775393
  else if t < 60 then 2400959708
  else 3395469782

/-- One step of the SHA-1 message-schedule expansion: append
`rotl1 (w[t-3] xor w[t-8] xor w[t-14] xor w[t-16])` to the schedule. -/
def expandStep (ws : List Nat) : List Nat :=
  let n := ws.length
  let g := fun (i : Nat) => ws.getD (n - i) 0
  ws ++ [rotl32 (xor32 (xor32 (g 3) (g 8)) (xor32 (g 14) (g 16))) 1]

/-- `n`-fold iteration of a function. -/
def iterN {α : Type} (f : α → α) : Nat → α → α
  | 0, a => a
  | n + 1, a => iterN f n (f a)

/-- One SHA-1 compression round on the working quintuple. -/
def sha1Round (w : List Nat) (st : Nat × Nat × Nat × Nat × Nat) (t : Nat) :
    Nat × Nat × Nat × Nat × Nat :=
  match st with
  | (a, b, c, d, e) =>
    (w32 (rotl32 a 5 + shaF t b c d + e + shaK t + w.getD t 0), a, rotl32 b 30, c, d)

/-- Big-endian 32-bit word from four bytes. -/
def bytesToWord (a b c d : Nat) : Nat := ((a * 256 + b) * 256 + c) * 256 + d

/-- Big-endian words from a list of bytes, four at a time. -/
def bytesToWords : List Nat → List Nat
  | a :: b :: c :: d :: rest => bytesToWord a b c d :: bytesToWords rest
  | _ => []

/-- Big-endian bytes of a 32-bit word. -/
def wordBytes (w : Nat) : List Nat :=
  [w / 16777216 % 256, w / 65536 % 256, w / 256 % 256, w % 256]

/-- Big-endian eight-byte encoding of the message bit length. -/
def lenBytes64 (n : Nat) : List Nat :=
  [n / 72057594037927936 % 256, n / 281474976710656 % 256, n / 1099511627776 % 256,
   n / 4294967296 % 256, n / 16777216 % 256, n / 65536 % 256, n / 256 % 256, n % 256]

/-- SHA-1 padding: the byte `0x80`, zeros to 56 modulo 64, then the
bit length as eight big-endian bytes. -/
def sha1Pad (msg : List Nat) : List Nat :=
  let len := msg.length
  msg ++ 128 :: List.replicate ((120 - (len + 1) % 64) % 64) 0 ++ lenBytes64 (len * 8)

/-- Split a byte list into chunks of 64, with fuel (helper for `chunks`). -/
def chunksGo : Nat → List Nat → List (List Nat)
  | 0, _ => []
  | _ + 1, [] => []
  | fuel + 1, l => l.take 64 :: chunksGo fuel (l.drop 64)

/-- Split a byte list into chunks of 64 bytes. -/
def chunks (l : List Nat) : List (List Nat) := chunksGo l.length l

/-- SHA-1 compression of one 16-word block into the running state. -/
def sha1Block (st : Nat × Nat × Nat × Nat × Nat) (block : List Nat) :
    Nat × Nat × Nat × Nat × Nat :=
  let w := iterN expandStep 64 block
  match st, (List.range 80).foldl (sha1Round w) st with
  | (h0, h1, h2, h3, h4), (a, b, c, d, e) =>
    (w32 (h0 + a), w32 (h1 + b), w32 (h2 + c), w32 (h3 + d), w32 (h4 + e))

/-- SHA-1 digest (20 bytes) of a byte list. -/
def sha1 (msg : List Nat) : List Nat :=
  let st := ((chunks (sha1Pad msg)).map bytesToWords).foldl sha1Block
    (1732584193, 4023233417, 2562383102, 271733878, 3285377520)
  wordBytes st.1 ++ wordBytes st.2.1 ++ wordBytes st.2.2.1 ++
    wordBytes st.2.2.2.1 ++ wordBytes st.2.2.2.2

/-- HMAC-SHA1 of a message under a key, over byte lists. -/
def hmacSha1 (key msg : List Nat) : List Nat :=
  let k0 := if 64 < key.length then sha1 key else key
  let kpad := k0 ++ List.replicate (64 - k0.length) 0
  sha1 (kpad.map (fun b => xor32 b 92) ++ sha1 (kpad.map (fun b => xor32 b 54) ++ msg))

/-- Lowercase hexadecimal digit. -/
def hexDigit (n : Nat) : Char :=
  match n with
  | 0 => '0' | 1 => '1' | 2 => '2' | 3 => '3' | 4 => '4'
  | 5 => '5' | 6 => '6' | 7 => '7' | 8 => '8' | 9 => '9'
  | 10 => 'a' | 11 => 'b' | 12 => 'c' | 13 => 'd' | 14 => 'e' | _ => 'f'

/-- Two lowercase hexadecimal digits of a byte. -/
def hexByte (b : Nat) : List Char := [hexDigit (b / 16 % 16), hexDigit (b % 16)]

/-- Lowercase hexadecimal rendering of a byte list (`hexdigest`). -/
def hexOfBytes (bs : List Nat) : String := String.mk (List.flatten (bs.map hexByte))

/-- Four lowercase hexadecimal digits (for `json.dumps` unicode escapes). -/
def hex4 (n : Nat) : String :=
  String.mk [hexDigit (n / 4096 % 16), hexDigit (n / 256 % 16), hexDigit (n / 16 % 16),
    hexDigit (n % 16)]

/-- Escape of one character under `json.dumps` with its default
`ensure_ascii` behaviour. -/
def jsonEscapeChar (c : Char) : String :=
  let n := c.toNat
  if c = '"' then "\\\""
  else if c = '\\' then "\\\\"
  else if n = 10 then "\\n"
  else if n = 9 then "\\t"
  else if n = 13 then "\\r"
  else if n = 8 then "\\b"
  else if n = 12 then "\\f"
  else if n < 32 || 128 ≤ n then
    if n < 65536 then "\\u" ++ hex4 n
    else "\\u" ++ hex4 (55296 + (n - 65536) / 1024) ++ "\\u" ++ hex4 (56320 + (n - 65536) % 1024)
  else String.singleton c

/-- `json.dumps` on a string: the escaped text between double quotes. -/
def jsonDumpsStr (s : String) : String :=
  "\"" ++ String.join (s.data.map jsonEscapeChar) ++ "\""

/-- Environment configuration read by the handlers (`os.environ`). -/
structure Env where
  output_bucket : Option String
  github_secrets : Option String

/-- The HTTP-style response dictionary returned by the handlers. -/
structure Response where
  statusCode : Nat
  body : String
deriving DecidableEq, Repr

/-- The module-level branch constant (`branch_name = "main"` in both
files). -/
def branch_name : String := "main"

/-- The module-level cleanup flag (`cleanup = False` in
src/lambda/webhook.py line 18). -/
def cleanup : Bool := false

/-- The skip response for non-push events (lines 144-147 of
src/lambda/webhook.py and lines 62-65 of src/webhook.py). -/
def skipResponse : Response :=
  ⟨200, jsonDumpsStr "Skipping - Not a push event"⟩

/-- Body decoding, lines 115-121 of src/lambda/webhook.py and lines 33-39
of src/webhook.py: when a `body` member is present the handler runs
`json.loads(event[...])` unguarded; otherwise `json.loads` of the whole
event is attempted with a bare `except` falling back to the event
itself. -/
def decodeBody (event : JVal) : Except PyErr JVal :=
  if hasKey event "body" then
    match getItem event "body" with
    | .error e => .error e
    | .ok b => jsonLoadsVal b
  else
    match jsonLoadsVal event with
    | .ok v => .ok v
    | .error _ => .ok event

/-- Extraction of `body[...repository...][...full_name...]`, lines 126-129
of src/lambda/webhook.py and lines 44-47 of src/webhook.py: only
`KeyError` is converted to the validation message, any other exception
propagates. -/
def getFullName (body : JVal) : Except PyErr JVal :=
  match getItem body "repository" with
  | .error (.keyError _) => .error (.exc "Failed to find full_name in json post body")
  | .error e => .error e
  | .ok repo =>
    match getItem repo "full_name" with
    | .error (.keyError _) => .error (.exc "Failed to find full_name in json post body")
    | .error e => .error e
    | .ok v => .ok v

/-- Extraction of `body[...repository...][...clone_url...]`, lines 131-134
of src/lambda/webhook.py and lines 49-52 of src/webhook.py. -/
def getCloneUrl (body : JVal) : Except PyErr JVal :=
  match getItem body "repository" with
  | .error (.keyError _) => .error (.exc "Failed to find clone_url name in json post body")
  | .error e => .error e
  | .ok repo =>
    match getItem repo "clone_url" with
    | .error (.keyError _) => .error (.exc "Failed to find clone_url name in json post body")
    | .error e => .error e
    | .ok v => .ok v

/-- Event-type filter, lines 141-147 of src/lambda/webhook.py and lines
59-65 of src/webhook.py: returns `true` when the request is to be skipped,
that is when a headers member exists, carries an `X-GitHub-Event` entry,
and that entry differs from the string `push`. -/
def eventFilter (event : JVal) : Except PyErr Bool :=
  if hasKey event "headers" then
    match getItem event "headers" with
    | .error e => .error e
    | .ok hs =>
      if hasKey hs "X-GitHub-Event" then
        match getItem hs "X-GitHub-Event" with
        | .error e => .error e
        | .ok v => .ok (!(pyEqStr v "push"))
      else .ok false
  else .ok false

/-- One iteration of the key loop, lines 161-165 of src/lambda/webhook.py
and lines 79-83 of src/webhook.py: encode the key, fetch and encode the
raw `event[...body...]`, compute the HMAC-SHA1 tag, format it as
`sha1=<hex>`, and compare the encodings in constant time, keeping the
accumulator on a mismatch. -/
def sigCheckStep (event sigV : JVal) (secure : Bool) (k : String) : Except PyErr Bool := do
  let kb ← encodeAsciiStr k
  let bodyV ← getItem event "body"
  let bb ← encodeJValAscii bodyV
  let cs := "sha1=" ++ hexOfBytes (hmacSha1 kb bb)
  let csb ← encodeAsciiStr cs
  let sb ← encodeJValAscii sigV
  pure (if csb == sb then true else secure)

/-- The whole key loop: fold of `sigCheckStep` over the configured keys
starting from `secure = False`. -/
def runKeyLoop (keys : List String) (event sigV : JVal) : Except PyErr Bool :=
  keys.foldlM (sigCheckStep event sigV) false

/-- Signature verification block, lines 153-167 of src/lambda/webhook.py
and lines 71-85 of src/webhook.py: split the secrets on commas, test
`x-hub-signature in event[...headers...].keys()` (the headers access is
unguarded), run the key loop when the header is present, and raise unless
some key validated. -/
def sigBlock (github_secrets : String) (event : JVal) : Except PyErr Unit := do
  let apikeys := pySplit github_secrets ','
  let headersV ← getItem event "headers"
  let present ← keysContains headersV "x-hub-signature"
  let secure ←
    if present then do
      let sigV ← getItem headersV "x-hub-signature"
      runKeyLoop apikeys event sigV
    else pure false
  if secure then pure ()
  else .error (.exc "Failed to validate authenticity of webhook message")

/-- Model of a pygit2 repository handle: its remotes (name and url), the
commit its head points to, and the commit its working tree reflects.
Commits are abstract identifiers. -/
structure RepoM where
  remotes : List (String × String)
  headTarget : Nat
  workdir : Nat
deriving DecidableEq, Repr

/-- Git-level operations issued by the sync code, recorded as a trace. -/
inductive SyncOp where
  | discover
  | rmtree
  | clone
  | createRemote
  | fetch
  | lookupRef (ref : String)
  | checkout (commit : Nat)
  | setHead (commit : Nat)
deriving DecidableEq, Repr

/-- Modelled from the spec: `pygit2.clone_repository` produces a fresh
repository whose single remote is `origin` at the clone url, checked out
at the commit the remote serves (section 4.3 of the spec, clone into a
fresh directory). -/
def clone_repositoryM (url : String) (c0 : Nat) : RepoM :=
  ⟨[("origin", url)], c0, c0⟩

/-- `create_repo`, lines 34-40 of src/lambda/webhook.py: delete the path
contents when the path exists, then clone from the remote url.  The
returned trace records the deletion and the clone. -/
def create_repo (pathExists : Bool) (remote_url : String) (c0 : Nat) :
    RepoM × List SyncOp :=
  (clone_repositoryM remote_url c0,
    (if pathExists then [SyncOp.rmtree] else []) ++ [SyncOp.clone])

/-- Ref resolution of `pull_repo`, lines 53-56 of src/lambda/webhook.py:
`refs/<branch>` when the branch starts with `tags/`, else
`refs/remotes/origin/<branch>`. -/
def resolveRef (branch : String) : String :=
  if pyStartsWith branch "tags/" then "refs/" ++ branch
  else "refs/remotes/origin/" ++ branch

/-- `pull_repo`, lines 43-60 of src/lambda/webhook.py: reuse a remote
whose url matches, else create `origin`; fetch; resolve the target ref
(raising `KeyError` when the remote lacks it, as `lookup_reference`
does); check the working tree out at the resolved commit and point the
head at it.  `refs` maps ref names to their targets after the fetch
(modelled from the spec, section 4.3: the fetch makes the remote refs
available locally). -/
def pull_repo (repo : RepoM) (branch remote_url : String)
    (refs : String → Option Nat) : Except PyErr RepoM × List SyncOp :=
  let remote_exists := repo.remotes.any (fun r => r.2 == remote_url)
  let repo1 :=
    if remote_exists then repo
    else ⟨repo.remotes ++ [("origin", remote_url)], repo.headTarget, repo.workdir⟩
  let ops0 := (if remote_exists then [] else [SyncOp.createRemote]) ++ [SyncOp.fetch]
  let ref := resolveRef branch
  match refs ref with
  | none => (.error (.keyError ref), ops0 ++ [SyncOp.lookupRef ref])
  | some t =>
    (.ok ⟨repo1.remotes, t, t⟩,
      ops0 ++ [SyncOp.lookupRef ref, SyncOp.checkout t, SyncOp.setHead t])

/-- Outcomes of the external git world for one invocation: whether
`discover_repository` plus `Repository` succeed at the deterministic
path (and with which handle), whether the path has contents, the commit a
fresh clone would check out, and the ref targets visible after a fetch.
Modelled from the spec, section 4.3: opening succeeds exactly when a
valid repository is reachable at the expected path. -/
structure GitEnv where
  openable : Option RepoM
  pathExists : Bool
  cloneCommit : Nat
  refs : String → Option Nat

/-- Lines 175-182 of src/lambda/webhook.py: adopt the existing repository
when discover and open succeed, otherwise fall to `create_repo` (any
exception takes this branch). -/
def discoverOrCreate (genv : GitEnv) (remote_url : String) : RepoM × List SyncOp :=
  match genv.openable with
  | some r => (r, [SyncOp.discover])
  | none =>
    let p := create_repo genv.pathExists remote_url genv.cloneCommit
    (p.1, SyncOp.discover :: p.2)

/-- The whole repository-sync segment, lines 175-185 of
src/lambda/webhook.py: discover-or-create followed by `pull_repo` on the
module branch. -/
def syncOnce (genv : GitEnv) (remote_url : String) :
    Except PyErr RepoM × List SyncOp :=
  let p := discoverOrCreate genv remote_url
  let q := pull_repo p.1 branch_name remote_url genv.refs
  (q.1, p.2 ++ q.2)

/-- Coarse pipeline stages recorded by the full handler. -/
inductive PipeOp where
  | sync
  | build
  | publish
  | cleanupRun
deriving DecidableEq, Repr

/-- The full handler `post` of src/lambda/webhook.py (lines 98-204):
output bucket configuration, body decoding, field validation, secrets
configuration, event filtering, signature verification, then repository
sync, hugo build and S3 upload.  The second component is the trace of
coarse pipeline stages reached; the git operations inside the sync stage
are recorded by `syncOnce`. -/
def postLambda (env : Env) (genv : GitEnv) (event : JVal) :
    Except PyErr Response × List PipeOp :=
  match env.output_bucket with
  | none =>
    (.error (.exc "Output Bucket not defined. Set the environment variable for the funcion"), [])
  | some _output_bucket =>
    match decodeBody event with
    | .error e => (.error e, [])
    | .ok body =>
      match getFullName body with
      | .error e => (.error e, [])
      | .ok fullNameV =>
        match getCloneUrl body with
        | .error e => (.error e, [])
        | .ok cloneUrlV =>
          match env.github_secrets with
          | none =>
            (.error (.exc "Github secrets not defined. Set the environment variable for the funcion"), [])
          | some github_secrets =>
            match eventFilter event with
            | .error e => (.error e, [])
            | .ok true => (.ok skipResponse, [])
            | .ok false =>
              match sigBlock github_secrets event with
              | .error e => (.error e, [])
              | .ok _ =>
                match fullNameV with
                | .obj _ => (.error .typeError, [])
                | .str full_name _ =>
                  let repo_name := full_name ++ "/branch/" ++ branch_name
                  match cloneUrlV with
                  | .obj _ => (.error .typeError, [PipeOp.sync])
                  | .str remote_url _ =>
                    match (syncOnce genv remote_url).1 with
                    | .error e => (.error e, [PipeOp.sync])
                    | .ok _ =>
                      (.ok ⟨200, jsonDumpsStr ("Successfully updated " ++ repo_name)⟩,
                        [PipeOp.sync, PipeOp.build, PipeOp.publish] ++
                          (if cleanup then [PipeOp.cleanupRun] else []))

/-- The stripped handler `post` of src/webhook.py (lines 22-95): the same
decoding, validation, configuration, filtering and verification steps,
then an acknowledgement response with no repository work. -/
def postWebhook (env : Env) (event : JVal) : Except PyErr Response :=
  match decodeBody event with
  | .error e => .error e
  | .ok body =>
    match getFullName body with
    | .error e => .error e
    | .ok fullNameV =>
      match getCloneUrl body with
      | .error e => .error e
      | .ok _cloneUrlV =>
        match env.github_secrets with
        | none =>
          .error (.exc "Github secrets not defined. Set the environment variable for the funcion")
        | some github_secrets =>
          match eventFilter event with
          | .error e => .error e
          | .ok true => .ok skipResponse
          | .ok false =>
            match sigBlock github_secrets event with
            | .error e => .error e
            | .ok _ =>
              match fullNameV with
              | .obj _ => .error .typeError
              | .str full_name _ =>
                .ok ⟨200, jsonDumpsStr ("Successfully handled " ++ (full_name ++ "/branch/" ++ branch_name))⟩

/-! ## Helper lemmas -/

/-- Characters with equal code points are equal. -/
lemma char_toNat_inj {a b : Char} (h : a.toNat = b.toNat) : a = b := by
  cases a with | mk v hv => cases b with | mk w hw =>
  simp only [Char.toNat] at h
  congr 1
  cases v; cases w
  simp only [UInt32.toNat, BitVec.toNat] at h
  congr 1
  exact BitVec.toNat_injective h

/-- ASCII encoding is injective on strings. -/
lemma asciiBytes_inj {s t : String} (h : asciiBytes s = asciiBytes t) : s = t := by
  apply String.ext
  exact List.map_injective_iff.mpr (fun a b hab => char_toNat_inj hab) h

/-- Hexadecimal digits are ASCII. -/
lemma hexDigit_ascii (n : Nat) : (hexDigit n).toNat < 128 := by
  unfold hexDigit
  split <;> decide

/-- Hexadecimal renderings are ASCII strings. -/
lemma hexOfBytes_ascii (bs : List Nat) : isAsciiStr (hexOfBytes bs) = true := by
  unfold isAsciiStr hexOfBytes
  rw [List.all_eq_true]
  intro c hc
  simp only [String.data] at hc
  rw [List.mem_flatten] at hc
  obtain ⟨l, hl, hcl⟩ := hc
  rw [List.mem_map] at hl
  obtain ⟨b, _, rfl⟩ := hl
  simp only [hexByte, List.mem_cons, List.mem_singleton, List.not_mem_nil] at hcl
  rcases hcl with rfl | rfl | h
  · simpa using hexDigit_ascii _
  · simpa using hexDigit_ascii _
  · cases h

/-- The computed signature string `sha1=<hex>` is ASCII. -/
lemma computedSig_ascii (d : List Nat) :
    isAsciiStr ("sha1=" ++ hexOfBytes d) = true := by
  unfold isAsciiStr
  rw [String.data_append, List.all_append]
  have h2 := hexOfBytes_ascii d
  unfold isAsciiStr at h2
  rw [h2]
  decide

/-- Distinct hexadecimal digits of values below 16. -/
lemma hexDigit_inj : ∀ a < 16, ∀ b < 16, hexDigit a = hexDigit b → a = b := by decide

/-- The two-digit rendering of bytes is injective. -/
lemma hexByte_inj {a b : Nat} (ha : a < 256) (hb : b < 256)
    (h : hexByte a = hexByte b) : a = b := by
  simp only [hexByte, List.cons.injEq, and_true] at h
  have h1 := hexDigit_inj _ (Nat.mod_lt _ (by omega)) _ (Nat.mod_lt _ (by omega)) h.1
  have h2 := hexDigit_inj _ (Nat.mod_lt _ (by omega)) _ (Nat.mod_lt _ (by omega)) h.2
  have ha1 : a / 16 % 16 = a / 16 := Nat.mod_eq_of_lt (by omega)
  have hb1 : b / 16 % 16 = b / 16 := Nat.mod_eq_of_lt (by omega)
  rw [ha1, hb1] at h1
  omega

/-- The hexadecimal rendering of a byte list is injective on lists of
values below 256. -/
lemma hexChars_inj : ∀ (d d' : List Nat), (∀ x ∈ d, x < 256) → (∀ x ∈ d', x < 256) →
    List.flatten (d.map hexByte) = List.flatten (d'.map hexByte) → d = d' := by
  intro d
  induction d with
  | nil =>
    intro d' _ _ h
    cases d' with
    | nil => rfl
    | cons b bs => simp [hexByte] at h
  | cons a as ih =>
    intro d' hd hd' h
    cases d' with
    | nil => simp [hexByte] at h
    | cons b bs =>
      simp only [List.map_cons, List.flatten_cons, hexByte, List.cons_append,
        List.nil_append, List.cons.injEq] at h
      obtain ⟨h1, h2, h3⟩ := h
      have ha : a < 256 := hd a (List.mem_cons_self a as)
      have hb : b < 256 := hd' b (List.mem_cons_self b bs)
      have hab : a = b := hexByte_inj ha hb (by simp [hexByte, h1, h2])
      have hrest : as = bs := by
        apply ih bs (fun x hx => hd x (List.mem_cons_of_mem _ hx))
          (fun x hx => hd' x (List.mem_cons_of_mem _ hx))
        simpa [hexByte] using h3
      exact hab ▸ hrest ▸ rfl

/-- Bytes of a 32-bit word are below 256. -/
lemma wordBytes_lt (w : Nat) : ∀ x ∈ wordBytes w, x < 256 := by
  intro x hx
  simp only [wordBytes, List.mem_cons, List.mem_singleton, List.not_mem_nil, or_false] at hx
  rcases hx with rfl | rfl | rfl | rfl <;> exact Nat.mod_lt _ (by omega)

/-- SHA-1 digests are byte lists with values below 256. -/
lemma sha1_bytes_lt (m : List Nat) : ∀ x ∈ sha1 m, x < 256 := by
  intro x hx
  unfold sha1 at hx
  simp only [List.mem_append] at hx
  rcases hx with ((((h | h) | h) | h) | h) <;> exact wordBytes_lt _ _ h

/-- HMAC-SHA1 digests are byte lists with values below 256. -/
lemma hmacSha1_bytes_lt (k m : List Nat) : ∀ x ∈ hmacSha1 k m, x < 256 := by
  unfold hmacSha1
  exact sha1_bytes_lt _

/-- Equality of rendered HMAC digests forces equality of the digests. -/
lemma computedSig_inj {k m s : List Nat}
    (h : "sha1=" ++ hexOfBytes (hmacSha1 k m) = "sha1=" ++ hexOfBytes (hmacSha1 s m)) :
    hmacSha1 k m = hmacSha1 s m := by
  have hdata : ("sha1=" ++ hexOfBytes (hmacSha1 k m)).data =
      ("sha1=" ++ hexOfBytes (hmacSha1 s m)).data := by rw [h]
  rw [String.data_append, String.data_append] at hdata
  have hhex := List.append_cancel_left hdata
  exact hexChars_inj _ _ (hmacSha1_bytes_lt k m) (hmacSha1_bytes_lt s m) hhex

/-- A list is a Boolean prefix of itself followed by anything. -/
lemma isPrefixOf_append_self (l m : List Char) : l.isPrefixOf (l ++ m) = true := by
  rw [List.isPrefixOf_iff_prefix]
  exact List.prefix_append l m

/-- Bind of a successful `Except` computation reduces to the
continuation. -/
lemma exceptOk_bind {ε α β : Type} (a : α) (f : α → Except ε β) :
    (Except.ok a >>= f) = f a := rfl

/-- Bind of a failed `Except` computation short-circuits. -/
lemma exceptErr_bind {ε α β : Type} (e : ε) (f : α → Except ε β) :
    ((Except.error e : Except ε α) >>= f) = Except.error e := rfl

/-- Evaluation of one key-loop iteration under ASCII inputs: the result
is `True` exactly when the formatted tag for this key equals the provided
signature, and the accumulator otherwise. -/
lemma sigCheckStep_eval (event : JVal) (bodyRaw sigRaw : String)
    (pb ps : Option JVal) (k : String) (acc : Bool)
    (hk : isAsciiStr k = true)
    (hbody : getItem event "body" = .ok (.str bodyRaw pb))
    (hba : isAsciiStr bodyRaw = true)
    (hsa : isAsciiStr sigRaw = true) :
    sigCheckStep event (.str sigRaw ps) acc k =
      .ok (if "sha1=" ++ hexOfBytes (hmacSha1 (asciiBytes k) (asciiBytes bodyRaw)) = sigRaw
        then true else acc) := by
  by_cases hcs :
      "sha1=" ++ hexOfBytes (hmacSha1 (asciiBytes k) (asciiBytes bodyRaw)) = sigRaw
  · simp [sigCheckStep, encodeAsciiStr, hk, hbody, encodeJValAscii, hba, hsa,
      computedSig_ascii, hcs, exceptOk_bind]
  · have hne : asciiBytes
        ("sha1=" ++ hexOfBytes (hmacSha1 (asciiBytes k) (asciiBytes bodyRaw))) ≠
        asciiBytes sigRaw := fun hab => hcs (asciiBytes_inj hab)
    simp [sigCheckStep, encodeAsciiStr, hk, hbody, encodeJValAscii, hba, hsa,
      computedSig_ascii, hcs, hne, exceptOk_bind]

/-- Evaluation of the whole key loop under ASCII inputs: a pure fold that
turns the accumulator on at each matching key. -/
lemma runKeyLoop_eval (keys : List String) (event : JVal)
    (bodyRaw sigRaw : String) (pb ps : Option JVal) (acc : Bool)
    (hkeys : ∀ k ∈ keys, isAsciiStr k = true)
    (hbody : getItem event "body" = .ok (.str bodyRaw pb))
    (hba : isAsciiStr bodyRaw = true)
    (hsa : isAsciiStr sigRaw = true) :
    keys.foldlM (sigCheckStep event (.str sigRaw ps)) acc =
      .ok (keys.foldl (fun a k =>
        if "sha1=" ++ hexOfBytes (hmacSha1 (asciiBytes k) (asciiBytes bodyRaw)) = sigRaw
        then true else a) acc) := by
  induction keys generalizing acc with
  | nil => rfl
  | cons k ks ih =>
    rw [List.foldlM_cons,
      sigCheckStep_eval event bodyRaw sigRaw pb ps k acc
        (hkeys k (List.mem_cons_self k ks)) hbody hba hsa]
    rw [List.foldl_cons]
    exact ih _ (fun x hx => hkeys x (List.mem_cons_of_mem _ hx))

/-- A fold that turns the accumulator on at each satisfying element is
the disjunction of the accumulator with an existence test. -/
lemma foldl_if_eq_any {α : Type} (p : α → Prop) [DecidablePred p]
    (l : List α) (acc : Bool) :
    l.foldl (fun a k => if p k then true else a) acc =
      (acc || l.any (fun k => decide (p k))) := by
  induction l generalizing acc with
  | nil => simp
  | cons k ks ih =>
    rw [List.foldl_cons, List.any_cons, ih]
    by_cases h : p k <;> simp [h]

/-- `pull_repo` never issues a clone or a delete. -/
lemma pull_repo_no_clone (repo : RepoM) (branch url : String)
    (refs : String → Option Nat) :
    SyncOp.clone ∉ (pull_repo repo branch url refs).2 ∧
    SyncOp.rmtree ∉ (pull_repo repo branch url refs).2 := by
  unfold pull_repo
  cases h : refs (resolveRef branch) <;>
    cases h2 : repo.remotes.any (fun r => r.2 == url) <;> simp [h, h2]

/-- Boolean existence tests agree on permuted lists. -/
lemma perm_any_eq {α : Type} (l l' : List α) (p : α → Bool) (h : l.Perm l') :
    l.any p = l'.any p := by
  refine Bool.eq_iff_iff.mpr ?_
  rw [List.any_eq_true, List.any_eq_true]
  constructor
  · rintro ⟨x, hx, hp⟩
    exact ⟨x, h.mem_iff.mp hx, hp⟩
  · rintro ⟨x, hx, hp⟩
    exact ⟨x, h.mem_iff.mpr hx, hp⟩

/-- Underlying characters of a left fold of string appends. -/
lemma foldl_append_data (l : List String) (acc : String) :
    (l.foldl (fun r s => r ++ s) acc).data = acc.data ++ (l.map String.data).flatten := by
  induction l generalizing acc with
  | nil => simp
  | cons s ss ih => simp [List.foldl_cons, ih, String.data_append]

/-- When the first two characters of a string escape to themselves, the
`json.dumps` rendering starts with a quote followed by those two
characters. -/
lemma jsonDumpsStr_prefix2 (s : String) (c1 c2 : Char) (rest : List Char)
    (hs : s.data = c1 :: c2 :: rest)
    (h1 : jsonEscapeChar c1 = String.singleton c1)
    (h2 : jsonEscapeChar c2 = String.singleton c2) :
    ∃ tail, (jsonDumpsStr s).data = '"' :: c1 :: c2 :: tail := by
  refine ⟨((rest.map jsonEscapeChar).map String.data).flatten ++ ['"'], ?_⟩
  unfold jsonDumpsStr String.join
  rw [String.data_append, String.data_append, hs]
  simp only [List.map_cons, List.foldl_cons, foldl_append_data, String.data_append]
  rw [h1, h2]
  simp [String.singleton]

/-- The acknowledgement body of the stripped handler never equals the
skip body. -/
lemma ack_ne_skip (x : String) :
    jsonDumpsStr ("Successfully handled " ++ x) ≠
      jsonDumpsStr "Skipping - Not a push event" := by
  intro h
  obtain ⟨t1, ht1⟩ := jsonDumpsStr_prefix2 ("Successfully handled " ++ x) 'S' 'u'
    ("ccessfully handled ".data ++ x.data)
    (by rw [String.data_append]; rfl) rfl rfl
  obtain ⟨t2, ht2⟩ := jsonDumpsStr_prefix2 "Skipping - Not a push event" 'S' 'k'
    "ipping - Not a push event".data rfl rfl rfl
  have hdata := congrArg String.data h
  rw [ht1, ht2] at hdata
  simp at hdata

/-! ## Claim C1 -/

/-- C1: over ASCII inputs, the key loop accepts exactly when some
configured secret produces the provided signature; the outcome is
invariant under permutation of the secret list; a signature produced
with a secret whose digest differs from every configured secret's digest
is rejected; and the verification block accepts exactly when the loop
does. -/
theorem C1_verify_any_match (keys : List String) (event : JVal)
    (bodyRaw sigRaw : String) (pb ps : Option JVal)
    (hkeys : ∀ k ∈ keys, isAsciiStr k = true)
    (hbody : getItem event "body" = .ok (.str bodyRaw pb))
    (hba : isAsciiStr bodyRaw = true)
    (hsa : isAsciiStr sigRaw = true) :
    (runKeyLoop keys event (.str sigRaw ps) = .ok true ↔
      ∃ k ∈ keys,
        "sha1=" ++ hexOfBytes (hmacSha1 (asciiBytes k) (asciiBytes bodyRaw)) = sigRaw) ∧
    (∀ keys2, keys2.Perm keys →
      runKeyLoop keys2 event (.str sigRaw ps) = runKeyLoop keys event (.str sigRaw ps)) ∧
    (∀ s : String,
      sigRaw = "sha1=" ++ hexOfBytes (hmacSha1 (asciiBytes s) (asciiBytes bodyRaw)) →
      (∀ k ∈ keys, hmacSha1 (asciiBytes k) (asciiBytes bodyRaw) ≠
        hmacSha1 (asciiBytes s) (asciiBytes bodyRaw)) →
      runKeyLoop keys event (.str sigRaw ps) = .ok false) ∧
    (∀ gs hs, pySplit gs ',' = keys →
      getItem event "headers" = .ok (.obj hs) →
      lookupField hs "x-hub-signature" = some (.str sigRaw ps) →
      (sigBlock gs event = .ok () ↔
        ∃ k ∈ keys,
          "sha1=" ++ hexOfBytes (hmacSha1 (asciiBytes k) (asciiBytes bodyRaw)) = sigRaw)) := by
  have hloop : ∀ (ks : List String), (∀ k ∈ ks, isAsciiStr k = true) →
      runKeyLoop ks event (.str sigRaw ps) =
        .ok (ks.any (fun k => decide
          ("sha1=" ++ hexOfBytes (hmacSha1 (asciiBytes k) (asciiBytes bodyRaw)) = sigRaw))) := by
    intro ks hks
    unfold runKeyLoop
    rw [runKeyLoop_eval ks event bodyRaw sigRaw pb ps false hks hbody hba hsa,
      foldl_if_eq_any]
    simp
  have hiff : ∀ (ks : List String), (∀ k ∈ ks, isAsciiStr k = true) →
      (runKeyLoop ks event (.str sigRaw ps) = .ok true ↔
        ∃ k ∈ ks,
          "sha1=" ++ hexOfBytes (hmacSha1 (asciiBytes k) (asciiBytes bodyRaw)) = sigRaw) := by
    intro ks hks
    rw [hloop ks hks]
    simp [List.any_eq_true]
  refine ⟨hiff keys hkeys, ?_, ?_, ?_⟩
  · intro keys2 hperm
    have hk2 : ∀ k ∈ keys2, isAsciiStr k = true := fun k hk =>
      hkeys k (hperm.mem_iff.mp hk)
    rw [hloop keys hkeys, hloop keys2 hk2, perm_any_eq keys2 keys _ hperm]
  · intro s hs hne
    rw [hloop keys hkeys]
    have hany : keys.any (fun k => decide
        ("sha1=" ++ hexOfBytes (hmacSha1 (asciiBytes k) (asciiBytes bodyRaw)) = sigRaw)) =
        false := by
      rw [List.any_eq_false]
      intro k hk
      simp only [decide_eq_true_eq]
      intro hcs
      rw [hs] at hcs
      exact hne k hk (computedSig_inj hcs)
    rw [hany]
  · intro gs hs hsplit hheaders hlook
    have hpresent : keysContains (.obj hs) "x-hub-signature" = .ok true := by
      simp [keysContains, hlook]
    have hsigv : getItem (.obj hs) "x-hub-signature" = .ok (.str sigRaw ps) := by
      simp [getItem, hlook]
    rw [← hiff keys hkeys]
    simp only [sigBlock, hsplit, hheaders, exceptOk_bind, hpresent, hsigv, if_true]
    rw [hloop keys hkeys]
    cases hany : keys.any (fun k => decide
        ("sha1=" ++ hexOfBytes (hmacSha1 (asciiBytes k) (asciiBytes bodyRaw)) = sigRaw))
    · simp [exceptOk_bind, hany]
    · simp [exceptOk_bind, hany]
      rfl

/-- Witness for C1: with two ASCII secrets and an ASCII body, a
signature formed with the second secret is accepted. -/
theorem C1_witness :
    runKeyLoop ["k1", "k2"]
        (.obj [("body", .str "payload" none)])
        (.str ("sha1=" ++ hexOfBytes (hmacSha1 (asciiBytes "k2") (asciiBytes "payload"))) none) =
      .ok true :=
  (C1_verify_any_match ["k1", "k2"] (.obj [("body", .str "payload" none)])
      "payload" ("sha1=" ++ hexOfBytes (hmacSha1 (asciiBytes "k2") (asciiBytes "payload")))
      none none (by decide) rfl (by decide) (computedSig_ascii _)).1.mpr
    ⟨"k2", by decide, rfl⟩

/-! ## Claim C2 -/

/-- C2: on a push-event invocation with the required configuration set
and a valid payload, an authentication failure aborts the handler with
the raised error and an empty stage trace — repository sync, build and
publish are never invoked.  The second and third conjuncts show that a
missing `x-hub-signature` header and a no-match signature are indeed
authentication failures of the verification block. -/
theorem C2_auth_failure_blocks_pipeline (env : Env) (genv : GitEnv) (event : JVal)
    (b gs : String) (body fnV cuV : JVal)
    (hb : env.output_bucket = some b) (hgs : env.github_secrets = some gs)
    (hdec : decodeBody event = .ok body)
    (hfn : getFullName body = .ok fnV) (hcu : getCloneUrl body = .ok cuV)
    (hfilt : eventFilter event = .ok false) :
    (∀ e, sigBlock gs event = .error e →
      postLambda env genv event = (.error e, [])) ∧
    (∀ hs, getItem event "headers" = .ok (.obj hs) →
      lookupField hs "x-hub-signature" = none →
      sigBlock gs event =
        .error (.exc "Failed to validate authenticity of webhook message")) ∧
    (∀ hs sigRaw ps bodyRaw pb,
      getItem event "headers" = .ok (.obj hs) →
      lookupField hs "x-hub-signature" = some (.str sigRaw ps) →
      (∀ k ∈ pySplit gs ',', isAsciiStr k = true) →
      getItem event "body" = .ok (.str bodyRaw pb) →
      isAsciiStr bodyRaw = true → isAsciiStr sigRaw = true →
      (∀ k ∈ pySplit gs ',',
        "sha1=" ++ hexOfBytes (hmacSha1 (asciiBytes k) (asciiBytes bodyRaw)) ≠ sigRaw) →
      sigBlock gs event =
        .error (.exc "Failed to validate authenticity of webhook message")) := by
  refine ⟨?_, ?_, ?_⟩
  · intro e he
    simp [postLambda, hb, hgs, hdec, hfn, hcu, hfilt, he]
  · intro hs hheaders hlook
    have hpresent : keysContains (.obj hs) "x-hub-signature" = .ok false := by
      simp [keysContains, hlook]
    simp only [sigBlock, hheaders, exceptOk_bind, hpresent, if_false, Bool.false_eq_true]
    rfl
  · intro hs sigRaw ps bodyRaw pb hheaders hlook hkeys hbody hba hsa hnone
    have hpresent : keysContains (.obj hs) "x-hub-signature" = .ok true := by
      simp [keysContains, hlook]
    have hsigv : getItem (.obj hs) "x-hub-signature" = .ok (.str sigRaw ps) := by
      simp [getItem, hlook]
    have hloop : runKeyLoop (pySplit gs ',') event (.str sigRaw ps) = .ok false := by
      unfold runKeyLoop
      rw [runKeyLoop_eval (pySplit gs ',') event bodyRaw sigRaw pb ps false
        hkeys hbody hba hsa, foldl_if_eq_any]
      have hany : (pySplit gs ',').any (fun k => decide
          ("sha1=" ++ hexOfBytes (hmacSha1 (asciiBytes k) (asciiBytes bodyRaw)) = sigRaw)) =
          false := by
        rw [List.any_eq_false]
        intro k hk
        simpa using hnone k hk
      rw [hany]
      rfl
    simp only [sigBlock, hheaders, exceptOk_bind, hpresent, if_true, hsigv, hloop,
      Bool.false_eq_true, if_false]

/-- Witness for C2: a push event carrying no `x-hub-signature` header
aborts with the authentication error and an empty stage trace. -/
theorem C2_witness :
    postLambda ⟨some "b", some "k1,k2"⟩ ⟨none, false, 0, fun _ => none⟩
        (.obj [("body", .str "p"
            (some (.obj [("repository",
              .obj [("full_name", .str "o/r" none), ("clone_url", .str "u" none)])]))),
          ("headers", .obj [])]) =
      (.error (.exc "Failed to validate authenticity of webhook message"), []) :=
  (C2_auth_failure_blocks_pipeline ⟨some "b", some "k1,k2"⟩
      ⟨none, false, 0, fun _ => none⟩
      (.obj [("body", .str "p"
          (some (.obj [("repository",
            .obj [("full_name", .str "o/r" none), ("clone_url", .str "u" none)])]))),
        ("headers", .obj [])])
      "b" "k1,k2" _ _ _ rfl rfl rfl rfl rfl rfl).1 _
    ((C2_auth_failure_blocks_pipeline ⟨some "b", some "k1,k2"⟩
      ⟨none, false, 0, fun _ => none⟩
      (.obj [("body", .str "p"
          (some (.obj [("repository",
            .obj [("full_name", .str "o/r" none), ("clone_url", .str "u" none)])]))),
        ("headers", .obj [])])
      "b" "k1,k2" _ _ _ rfl rfl rfl rfl rfl rfl).2.1 [] rfl rfl)

/-! ## Claim C5 -/

/-- C5: `pull_repo` resolves `refs/tags/<rest>` when the branch name
begins with `tags/` and `refs/remotes/origin/<branch>` otherwise, then
resets the working tree to the commit the resolved ref points to and
moves the head there, regardless of the prior working-tree state. -/
theorem C5_pull_repo_resolves_and_resets :
    (∀ rest : String, resolveRef ("tags/" ++ rest) = "refs/tags/" ++ rest) ∧
    (∀ branch : String, pyStartsWith branch "tags/" = false →
      resolveRef branch = "refs/remotes/origin/" ++ branch) ∧
    (∀ (repo : RepoM) (branch remote_url : String) (refs : String → Option Nat) (t : Nat),
      refs (resolveRef branch) = some t →
      ∃ repo' ops, pull_repo repo branch remote_url refs = (.ok repo', ops) ∧
        repo'.headTarget = t ∧ repo'.workdir = t) := by
  refine ⟨?_, ?_, ?_⟩
  · intro rest
    have hpre : pyStartsWith ("tags/" ++ rest) "tags/" = true := by
      unfold pyStartsWith
      rw [String.data_append]
      exact isPrefixOf_append_self _ _
    unfold resolveRef
    rw [hpre]
    simp only [if_true]
    rw [← String.append_assoc]
    rfl
  · intro branch h
    unfold resolveRef
    rw [h]
    simp
  · intro repo branch remote_url refs t h
    simp only [pull_repo]
    rw [h]
    cases repo.remotes.any (fun r => r.2 == remote_url) <;> simp

/-- Witness for C5 at concrete inputs. -/
theorem C5_witness :
    resolveRef ("tags/" ++ "v1") = "refs/tags/" ++ "v1" ∧
    resolveRef "main" = "refs/remotes/origin/" ++ "main" ∧
    ∃ repo' ops,
      pull_repo ⟨[], 0, 9⟩ "main" "u"
          (fun r => if r == "refs/remotes/origin/main" then some 5 else none) =
        (.ok repo', ops) ∧ repo'.headTarget = 5 ∧ repo'.workdir = 5 :=
  ⟨C5_pull_repo_resolves_and_resets.1 "v1",
   C5_pull_repo_resolves_and_resets.2.1 "main" (by decide),
   C5_pull_repo_resolves_and_resets.2.2 ⟨[], 0, 9⟩ "main" "u" _ 5 (by decide)⟩

/-! ## Claim C4 -/

/-- C4: the sync segment is adopt-or-recreate.  When opening fails, the
existing path contents are deleted (when present) and a full clone is
issued; when opening succeeds, the existing repository is adopted and no
clone or delete is issued; the first sync in a fresh environment clones,
and a second sync over the repository cached by the first performs
discover, fetch and reset only, with no re-clone. -/
theorem C4_adopt_or_recreate :
    (∀ (genv : GitEnv) (url : String), genv.openable = none →
      (syncOnce genv url).2 =
        [SyncOp.discover] ++ (if genv.pathExists then [SyncOp.rmtree] else []) ++
          [SyncOp.clone] ++
          (pull_repo (clone_repositoryM url genv.cloneCommit) branch_name url genv.refs).2) ∧
    (∀ (genv : GitEnv) (url : String) (r : RepoM), genv.openable = some r →
      SyncOp.clone ∉ (syncOnce genv url).2 ∧ SyncOp.rmtree ∉ (syncOnce genv url).2) ∧
    (∀ (url : String) (c : Nat) (refs : String → Option Nat) (t : Nat),
      refs "refs/remotes/origin/main" = some t →
      syncOnce ⟨none, false, c, refs⟩ url =
        (.ok ⟨[("origin", url)], t, t⟩,
         [SyncOp.discover, SyncOp.clone, SyncOp.fetch,
          SyncOp.lookupRef "refs/remotes/origin/main",
          SyncOp.checkout t, SyncOp.setHead t])) ∧
    (∀ (url : String) (rem : List (String × String)) (h0 w0 : Nat)
        (genv2 : GitEnv) (t2 : Nat),
      rem.any (fun r => r.2 == url) = true →
      genv2.openable = some ⟨rem, h0, w0⟩ →
      genv2.refs "refs/remotes/origin/main" = some t2 →
      (syncOnce genv2 url).2 =
        [SyncOp.discover, SyncOp.fetch, SyncOp.lookupRef "refs/remotes/origin/main",
         SyncOp.checkout t2, SyncOp.setHead t2]) := by
  have hmain : resolveRef branch_name = "refs/remotes/origin/main" := by decide
  refine ⟨?_, ?_, ?_, ?_⟩
  · intro genv url h
    unfold syncOnce discoverOrCreate
    rw [h]
    simp [create_repo]
  · intro genv url r h
    have hp := pull_repo_no_clone r branch_name url genv.refs
    unfold syncOnce discoverOrCreate
    rw [h]
    simp only [List.mem_append, List.mem_singleton]
    constructor
    · rintro (h1 | h2)
      · simp at h1
      · exact hp.1 h2
    · rintro (h1 | h2)
      · simp at h1
      · exact hp.2 h2
  · intro url c refs t h
    unfold syncOnce discoverOrCreate create_repo clone_repositoryM pull_repo
    rw [hmain]
    simp [h]
  · intro url rem h0 w0 genv2 t2 hany hopen href
    unfold syncOnce discoverOrCreate pull_repo
    rw [hopen, hmain]
    simp [hany, href]

/-- Witness for C4: a fresh environment clones; re-syncing the cached
result fetches and resets with no re-clone. -/
theorem C4_witness :
    syncOnce ⟨none, false, 7, fun r => if r == "refs/remotes/origin/main" then some 5 else none⟩ "u" =
      (.ok ⟨[("origin", "u")], 5, 5⟩,
       [SyncOp.discover, SyncOp.clone, SyncOp.fetch,
        SyncOp.lookupRef "refs/remotes/origin/main",
        SyncOp.checkout 5, SyncOp.setHead 5]) ∧
    (syncOnce ⟨some ⟨[("origin", "u")], 5, 5⟩, true, 7,
        fun r => if r == "refs/remotes/origin/main" then some 6 else none⟩ "u").2 =
      [SyncOp.discover, SyncOp.fetch, SyncOp.lookupRef "refs/remotes/origin/main",
       SyncOp.checkout 6, SyncOp.setHead 6] :=
  ⟨C4_adopt_or_recreate.2.2.1 "u" 7 _ 5 (by decide),
   C4_adopt_or_recreate.2.2.2 "u" [("origin", "u")] 5 5 _ 6 (by decide) rfl (by decide)⟩

/-! ## Claim C6 -/

/-- Counterexample to C6: when the nested body field holds invalid JSON
text, decoding aborts with the decode error; it does not fall through to
the later candidates, which would have accepted the event itself. -/
theorem C6_counterexample :
    decodeBody (.obj [("body", .str "notjson" none)]) = .error .jsonError ∧
    ∀ v : JVal, decodeBody (.obj [("body", .str "notjson" none)]) ≠ .ok v :=
  ⟨rfl, fun _ h => Except.noConfusion h⟩

/-- C6 as amended: when a `body` member is present its value is decoded
as JSON and a decode failure aborts the request; only when no `body`
member is present does the handler try to decode the whole input,
falling back to the input itself when that fails. -/
theorem C6_decode_order (event : JVal) :
    (hasKey event "body" = true →
      decodeBody event =
        match getItem event "body" with
        | .error e => .error e
        | .ok b => jsonLoadsVal b) ∧
    (hasKey event "body" = false →
      decodeBody event =
        .ok (match jsonLoadsVal event with | .ok v => v | .error _ => event)) := by
  constructor <;> intro h
  · simp only [decodeBody, h, if_true]
  · simp only [decodeBody, h, Bool.false_eq_true, if_false]
    cases jsonLoadsVal event <;> simp

/-- Witness for C6 at concrete events with and without a body member. -/
theorem C6_witness :
    decodeBody (.obj [("body", .str "x" (some (.obj [])))]) = .ok (.obj []) ∧
    decodeBody (.obj [("k", .str "v" none)]) = .ok (.obj [("k", .str "v" none)]) :=
  ⟨((C6_decode_order (.obj [("body", .str "x" (some (.obj [])))])).1 rfl).trans rfl,
   ((C6_decode_order (.obj [("k", .str "v" none)])).2 rfl).trans rfl⟩

/-! ## Claim C7 -/

/-- Counterexample to C7: with `github_secrets` absent but the body
field invalid, the handler raises the JSON decode error of payload
normalization, not a configuration error — so the `github_secrets`
configuration check does not precede payload normalization. -/
theorem C7_counterexample :
    postLambda ⟨some "bucket", none⟩ ⟨none, false, 0, fun _ => none⟩
        (.obj [("body", .str "notjson" none)]) =
      (.error .jsonError, []) ∧
    PyErr.jsonError ≠
      PyErr.exc "Github secrets not defined. Set the environment variable for the funcion" :=
  ⟨rfl, by decide⟩

/-- C7 as amended: a missing `output_bucket` raises its configuration
error before any payload work, for every event; a missing
`github_secrets` raises its configuration error only after body decoding
and field validation succeed, and then before event filtering, signature
verification, and any repository, build or publish work (empty stage
trace). -/
theorem C7_config_checks (env : Env) (genv : GitEnv) (event : JVal) :
    (env.output_bucket = none →
      postLambda env genv event =
        (.error (.exc "Output Bucket not defined. Set the environment variable for the funcion"),
          [])) ∧
    (∀ b body fnV cuV, env.output_bucket = some b → env.github_secrets = none →
      decodeBody event = .ok body → getFullName body = .ok fnV →
      getCloneUrl body = .ok cuV →
      postLambda env genv event =
        (.error (.exc "Github secrets not defined. Set the environment variable for the funcion"),
          [])) := by
  constructor
  · intro h
    simp [postLambda, h]
  · intro b body fnV cuV hb hgs hdec hfn hcu
    simp [postLambda, hb, hgs, hdec, hfn, hcu]

/-- Witness for C7 at concrete environments and events. -/
theorem C7_witness :
    postLambda ⟨none, some "k"⟩ ⟨none, false, 0, fun _ => none⟩ (.obj []) =
      (.error (.exc "Output Bucket not defined. Set the environment variable for the funcion"),
        []) ∧
    postLambda ⟨some "b", none⟩ ⟨none, false, 0, fun _ => none⟩
        (.obj [("body", .str "p"
          (some (.obj [("repository",
            .obj [("full_name", .str "o/r" none), ("clone_url", .str "u" none)])])))]) =
      (.error (.exc "Github secrets not defined. Set the environment variable for the funcion"),
        []) :=
  ⟨(C7_config_checks _ _ _).1 rfl,
   (C7_config_checks _ _ _).2 "b" _ _ _ rfl rfl rfl rfl rfl⟩

/-! ## Claim C8 -/

/-- C8: with required configuration set and the repository fields
present, an event whose `X-GitHub-Event` header is not `push` produces
the 200 skip response with no sync, build or publish stage — for every
event of that shape, hence for every value or absence of the
`x-hub-signature` header. -/
theorem C8_nonpush_skip (env : Env) (genv : GitEnv) (event : JVal)
    (b gs : String) (body fnV cuV hs v : JVal)
    (hb : env.output_bucket = some b) (hgs : env.github_secrets = some gs)
    (hdec : decodeBody event = .ok body)
    (hfn : getFullName body = .ok fnV) (hcu : getCloneUrl body = .ok cuV)
    (hhk : hasKey event "headers" = true)
    (hhs : getItem event "headers" = .ok hs)
    (hx : hasKey hs "X-GitHub-Event" = true)
    (hv : getItem hs "X-GitHub-Event" = .ok v)
    (hnp : pyEqStr v "push" = false) :
    postLambda env genv event = (.ok skipResponse, []) := by
  have hfilt : eventFilter event = .ok true := by
    simp [eventFilter, hhk, hhs, hx, hv, hnp]
  simp [postLambda, hb, hgs, hdec, hfn, hcu, hfilt]

/-- Witness for C8: a ping event with a garbage signature skips. -/
theorem C8_witness :
    postLambda ⟨some "b", some "k"⟩ ⟨none, false, 0, fun _ => none⟩
        (.obj [("body", .str "p"
            (some (.obj [("repository",
              .obj [("full_name", .str "o/r" none), ("clone_url", .str "u" none)])]))),
          ("headers", .obj [("X-GitHub-Event", .str "ping" none),
            ("x-hub-signature", .str "sha1=zzz" none)])]) =
      (.ok skipResponse, []) :=
  C8_nonpush_skip _ _ _ "b" "k" _ _ _ _ _ rfl rfl rfl rfl rfl rfl rfl rfl rfl rfl

/-! ## Claim C9 -/

/-- C9: with `output_bucket` defined, the stripped handler is a
validation-only refinement of the full handler.  The two agree on every
error (and every error of the stripped handler occurs before any
pipeline stage of the full handler), they agree on the non-push skip
response, and whenever the stripped handler acknowledges, the full
handler has proceeded to the sync stage, its successful runs completing
sync, build and publish. -/
theorem C9_stripped_refines_full (env : Env) (genv : GitEnv) (event : JVal)
    (b : String) (hb : env.output_bucket = some b) :
    (∀ e, postWebhook env event = .error e ↔
      postLambda env genv event = (.error e, [])) ∧
    (postWebhook env event = .ok skipResponse ↔
      postLambda env genv event = (.ok skipResponse, [])) ∧
    (∀ r, postWebhook env event = .ok r → r ≠ skipResponse →
      PipeOp.sync ∈ (postLambda env genv event).2 ∧
      ∀ r2, (postLambda env genv event).1 = .ok r2 →
        (postLambda env genv event).2 = [PipeOp.sync, PipeOp.build, PipeOp.publish]) := by
  cases hdec : decodeBody event with
  | error e0 => simp [postWebhook, postLambda, hb, hdec]
  | ok body =>
  cases hfn : getFullName body with
  | error e0 => simp [postWebhook, postLambda, hb, hdec, hfn]
  | ok fnV =>
  cases hcu : getCloneUrl body with
  | error e0 => simp [postWebhook, postLambda, hb, hdec, hfn, hcu]
  | ok cuV =>
  cases hgs : env.github_secrets with
  | none => simp [postWebhook, postLambda, hb, hdec, hfn, hcu, hgs]
  | some gs =>
  cases hfilt : eventFilter event with
  | error e0 => simp [postWebhook, postLambda, hb, hdec, hfn, hcu, hgs, hfilt]
  | ok sk =>
  cases sk with
  | true =>
    simp [postWebhook, postLambda, hb, hdec, hfn, hcu, hgs, hfilt]
  | false =>
  cases hsig : sigBlock gs event with
  | error e0 => simp [postWebhook, postLambda, hb, hdec, hfn, hcu, hgs, hfilt, hsig]
  | ok u =>
  cases fnV with
  | obj fs => simp [postWebhook, postLambda, hb, hdec, hfn, hcu, hgs, hfilt, hsig]
  | str fn pf =>
  cases cuV with
  | obj fs2 =>
    simp [postWebhook, postLambda, hb, hdec, hfn, hcu, hgs, hfilt, hsig,
      skipResponse, ack_ne_skip]
  | str url pu =>
  cases hs1 : (syncOnce genv url).1 with
  | error e1 =>
    simp [postWebhook, postLambda, hb, hdec, hfn, hcu, hgs, hfilt, hsig, hs1,
      skipResponse, ack_ne_skip]
  | ok rp =>
    simp [postWebhook, postLambda, hb, hdec, hfn, hcu, hgs, hfilt, hsig, hs1,
      skipResponse, ack_ne_skip, cleanup]

/-- Witness for C9 at a concrete environment and event: the stripped
handler rejects an empty payload with the full-name validation error,
and by the refinement the full handler rejects it identically with an
empty stage trace. -/
theorem C9_witness :
    postLambda ⟨some "b", some "k"⟩ ⟨none, false, 0, fun _ => none⟩ (.obj []) =
      (.error (.exc "Failed to find full_name in json post body"), []) :=
  ((C9_stripped_refines_full ⟨some "b", some "k"⟩ ⟨none, false, 0, fun _ => none⟩
      (.obj []) "b" rfl).1 _).mp rfl

/-- C10: an event without a `headers` member that passes configuration
and payload validation crashes with `KeyError` at the unguarded
`event[...headers...].keys()` of the signature check, in both handlers,
rather than raising the authentication failure message. -/
theorem C10_missing_headers_keyerror (env : Env) (genv : GitEnv)
    (fs : List (String × JVal)) (b gs : String) (body fnV cuV : JVal)
    (hb : env.output_bucket = some b) (hgs : env.github_secrets = some gs)
    (hnh : lookupField fs "headers" = none)
    (hdec : decodeBody (.obj fs) = .ok body)
    (hfn : getFullName body = .ok fnV) (hcu : getCloneUrl body = .ok cuV) :
    postLambda env genv (.obj fs) = (.error (.keyError "headers"), []) ∧
    postWebhook env (.obj fs) = .error (.keyError "headers") ∧
    PyErr.keyError "headers" ≠
      PyErr.exc "Failed to validate authenticity of webhook message" := by
  have hhk : hasKey (JVal.obj fs) "headers" = false := by
    simp [hasKey, hnh]
  have hfilt : eventFilter (.obj fs) = .ok false := by
    simp [eventFilter, hhk]
  have hsig : sigBlock gs (.obj fs) = .error (.keyError "headers") := by
    have hget : getItem (JVal.obj fs) "headers" = .error (.keyError "headers") := by
      simp [getItem, hnh]
    simp only [sigBlock, hget]
    rfl
  refine ⟨?_, ?_, by decide⟩
  · simp [postLambda, hb, hgs, hdec, hfn, hcu, hfilt, hsig]
  · simp [postWebhook, hgs, hdec, hfn, hcu, hfilt, hsig]

/-- Witness for C10 at a concrete event with no headers member. -/
theorem C10_witness :
    postLambda ⟨some "b", some "k"⟩ ⟨none, false, 0, fun _ => none⟩
        (.obj [("body", .str "p"
          (some (.obj [("repository",
            .obj [("full_name", .str "o/r" none), ("clone_url", .str "u" none)])])))]) =
      (.error (.keyError "headers"), []) :=
  (C10_missing_headers_keyerror ⟨some "b", some "k"⟩ ⟨none, false, 0, fun _ => none⟩
    [("body", .str "p"
      (some (.obj [("repository",
        .obj [("full_name", .str "o/r" none), ("clone_url", .str "u" none)])])))]
    "b" "k" _ _ _ rfl rfl rfl rfl rfl rfl).1
